import Mathlib

/-!
Shallow embedding of the repository-context resolution and error
classification core of `rust-git-wrapper` (`src/lib.rs`).

Filesystem access and external `git` invocations are modelled as oracles:
a `FileSys` structure supplies `is_file` / `is_dir` / `exists` / `canonicalize`,
and each function that spawns `git` receives the captured `Output`
(exit code, stdout, stderr) of that invocation as an explicit argument.
Paths are modelled as an absolute flag plus a list of components.
-/

namespace GitWrapper

/-- Captured output of one external process invocation, mirroring
`std::process::Output`: `code` is `none` when the process was killed by a
signal (where Rust's `status.code()` returns `None`). -/
structure Output where
  code : Option Int
  stdout : String
  stderr : String
deriving DecidableEq

/-- `ExitStatus::success()`: exit code is zero. -/
def Output.success (o : Output) : Bool := o.code == some 0

/-- A filesystem path: `absolute` mirrors `Path::is_absolute`, and
`components` is the list of path components under the (implicit) root or
current directory. -/
structure FilePath where
  absolute : Bool
  components : List String
deriving DecidableEq

/-- `Path::join` with a single-component name. -/
def FilePath.join (p : FilePath) (c : String) : FilePath :=
  ⟨p.absolute, p.components ++ [c]⟩

/-- `Path::parent`: strip the last component; the root (or the empty
relative path) has no parent. -/
def FilePath.parent (p : FilePath) : Option FilePath :=
  match p.components with
  | [] => none
  | _ :: _ => some ⟨p.absolute, p.components.dropLast⟩

/-- Component lists of `Path::ancestors`: the path itself first, then each
parent (each dropping one final component), ending at the root / empty
path. Implemented as the reversed tails of the reversed component list so
that it computes by structural recursion. -/
def ancestorComps (cs : List String) : List (List String) :=
  cs.reverse.tails.map List.reverse

theorem ancestorComps_nil : ancestorComps [] = [[]] := rfl

/-- The recurrence the Rust iterator follows: a non-empty path is
followed by the ancestors of its parent (`dropLast`). -/
theorem ancestorComps_cons (cs : List String) (h : cs ≠ []) :
    ancestorComps cs = cs :: ancestorComps cs.dropLast := by
  rcases cs.eq_nil_or_concat' with rfl | ⟨ds, d, rfl⟩
  · exact absurd rfl h
  · simp [ancestorComps, List.tails]

/-- `Path::ancestors` on the path model. -/
def FilePath.ancestors (p : FilePath) : List FilePath :=
  (ancestorComps p.components).map (fun cs => ⟨p.absolute, cs⟩)

/-- Filesystem oracle: the queries the resolution code performs.
`canonicalize` returns `none` exactly when `Path::canonicalize` would fail
(e.g. a component does not exist). -/
structure FileSys where
  is_file : FilePath → Bool
  is_dir : FilePath → Bool
  fs_exists : FilePath → Bool
  canonicalize : FilePath → Option FilePath

/- ---------------------------------------------------------------------
String helpers mirroring the Rust `str` operations used by the parsers.
--------------------------------------------------------------------- -/

/-- ASCII whitespace test used by the model of `str::trim`. -/
def isWs (c : Char) : Bool :=
  c == ' ' || c == '\n' || c == '\t' || c == '\r'

/-- `str::trim` on the character list: strip leading and trailing
whitespace. -/
def trimChars (cs : List Char) : List Char :=
  ((cs.dropWhile isWs).reverse.dropWhile isWs).reverse

/-- Model of Rust `str::trim`. -/
def rustTrim (s : String) : String := String.mk (trimChars s.data)

/-- Split off everything before the first occurrence of `sep`:
`some (pre, post)` when `sep` occurs, `none` otherwise. -/
def splitFirst (sep : Char) : List Char → Option (List Char × List Char)
  | [] => none
  | c :: cs =>
    if c == sep then some ([], cs)
    else
      match splitFirst sep cs with
      | none => none
      | some (pre, post) => some (c :: pre, post)

/-- Rust `str::split(sep)` collected into a list (always at least one
piece). -/
def splitAllC (sep : Char) : List Char → List (List Char)
  | [] => [[]]
  | c :: cs =>
    match splitAllC sep cs with
    | [] => [[]]
    | piece :: rest =>
      if c == sep then [] :: piece :: rest
      else (c :: piece) :: rest

/-- Rust `str::splitn(n, sep)` collected into a list: at most `n` pieces,
the last one keeping any remaining separators. -/
def splitnC (sep : Char) : Nat → List Char → List (List Char)
  | 0, _ => []
  | 1, cs => [cs]
  | n + 2, cs =>
    match splitFirst sep cs with
    | none => [cs]
    | some (pre, post) => pre :: splitnC sep (n + 1) post

/-- One `str::lines` element: strip a single trailing `'\r'`. -/
def stripCR (cs : List Char) : List Char :=
  if cs.getLast? == some '\r' then cs.dropLast else cs

/-- Model of Rust `str::lines`: split at `'\n'`, drop the final empty
piece produced by a trailing newline, strip a trailing `'\r'` from every
line. -/
def rustLines (s : String) : List String :=
  let pieces := splitAllC '\n' s.data
  let pieces := if pieces.getLast? == some [] then pieces.dropLast else pieces
  pieces.map (fun cs => String.mk (stripCR cs))

/-- `line.split('\t').next()`: the field before the first tab (the whole
line when it holds no tab). -/
def beforeTab (s : String) : String :=
  String.mk (s.data.takeWhile (fun c => !(c == '\t')))

/- ---------------------------------------------------------------------
Context resolution (`RepoError`, `AbsoluteDirPath`, `search_git_dir`,
`work_tree_from_git_dir`, `git_dir_from_work_tree`, `Repository::discover`).
--------------------------------------------------------------------- -/

instance {ε α : Type} [DecidableEq ε] [DecidableEq α] :
    DecidableEq (Except ε α) := fun a b =>
  match a, b with
  | .ok x, .ok y =>
    if h : x = y then .isTrue (by rw [h]) else .isFalse (by simp [h])
  | .error x, .error y =>
    if h : x = y then .isTrue (by rw [h]) else .isFalse (by simp [h])
  | .ok _, .error _ => .isFalse (by simp)
  | .error _, .ok _ => .isFalse (by simp)

/-- `RepoError` from `src/lib.rs`. -/
inductive RepoError where
  | GitDirNotFound
  | InvalidDirectory (p : FilePath)
  | AbsolutionError (p : FilePath)
  | FailAccessCwd
deriving DecidableEq

/-- `AbsoluteDirPath`: the validated path wrapper. -/
structure AbsoluteDirPath where
  path : FilePath
deriving DecidableEq

/-- `AbsoluteDirPath::new`: an absolute path is accepted unchanged with no
existence check; a relative path is canonicalized, failing with
`AbsolutionError` when canonicalization fails. -/
def AbsoluteDirPath.new (fs : FileSys) (path : FilePath) :
    Except RepoError AbsoluteDirPath :=
  if path.absolute then .ok ⟨path⟩
  else
    match fs.canonicalize path with
    | some p => .ok ⟨p⟩
    | none => .error (.AbsolutionError path)

/-- The self-test at the top of `search_git_dir`: canonicalize
`path/HEAD` and `path/objects`; when both succeed and the first is a file
and the second a directory, `path` itself is the metadata directory. -/
def selfIsMetaDir (fs : FileSys) (path : FilePath) : Bool :=
  match fs.canonicalize (path.join "HEAD"),
        fs.canonicalize (path.join "objects") with
  | some head_path, some objects_path =>
      fs.is_file head_path && fs.is_dir objects_path
  | _, _ => false

/-- The ancestor loop of `search_git_dir`: for each ancestor (the path
itself first) test whether its `.git` entry is a directory and exists;
the first hit is returned via `AbsoluteDirPath::new`, exhaustion gives
`GitDirNotFound`. -/
def searchAncestors (fs : FileSys) : List FilePath → Except RepoError AbsoluteDirPath
  | [] => .error .GitDirNotFound
  | parent :: rest =>
    let candidate := parent.join ".git"
    if fs.is_dir candidate && fs.fs_exists candidate then
      AbsoluteDirPath.new fs candidate
    else searchAncestors fs rest

/-- `search_git_dir`: canonicalize a relative start (failing with
`InvalidDirectory`), test the start itself for the `HEAD` file and
`objects` directory, then walk the ancestors looking for a `.git`
directory. -/
def search_git_dir (fs : FileSys) (start : FilePath) :
    Except RepoError AbsoluteDirPath :=
  match (if start.absolute then some start else fs.canonicalize start) with
  | none => .error (.InvalidDirectory start)
  | some path =>
    if selfIsMetaDir fs path then AbsoluteDirPath.new fs path
    else searchAncestors fs path.ancestors

/-- `work_tree_from_git_dir`: `out` is the captured output of
`git --git-dir <gd> rev-parse --is-bare-repository`. On success with
trimmed stdout equal to `"true"` the repository is bare (`none`);
otherwise the work tree is the metadata directory's parent when one
exists. -/
def work_tree_from_git_dir (fs : FileSys) (out : Output)
    (git_dir : AbsoluteDirPath) : Except RepoError (Option AbsoluteDirPath) :=
  if out.success && (rustTrim out.stdout == "true") then .ok none
  else
    match git_dir.path.parent with
    | some dir =>
      match AbsoluteDirPath.new fs dir with
      | .ok d => .ok (some d)
      | .error e => .error e
    | none => .ok none

/-- `git_dir_from_work_tree`: append the fixed name `.git` to the work
tree. -/
def git_dir_from_work_tree (fs : FileSys) (work_tree : AbsoluteDirPath) :
    Except RepoError AbsoluteDirPath :=
  AbsoluteDirPath.new fs (work_tree.path.join ".git")

/-- The `Repository` context: bare (metadata directory only) or normal
(metadata directory plus work tree). -/
inductive Repository where
  | Bare (git_dir : AbsoluteDirPath)
  | Normal (git_dir : AbsoluteDirPath) (work_tree : AbsoluteDirPath)
deriving DecidableEq

/-- `Repository::discover`: search for the metadata directory from
`path`, then derive the work tree; `bareOut` is the captured output of
the bareness query issued by `work_tree_from_git_dir`. -/
def Repository.discover (fs : FileSys) (bareOut : Output) (path : FilePath) :
    Except RepoError Repository :=
  match search_git_dir fs path with
  | .error e => .error e
  | .ok git_dir =>
    match work_tree_from_git_dir fs bareOut git_dir with
    | .error e => .error e
    | .ok (some work_tree) => .ok (.Normal git_dir work_tree)
    | .ok none => .ok (.Bare git_dir)

/- ---------------------------------------------------------------------
Invocation and error-classification layer. Each function receives the
captured `Output` of the single `git` invocation it performs.
--------------------------------------------------------------------- -/

/-- `ConfigReadError` from `src/lib.rs`. -/
inductive ConfigReadError where
  | InvalidSectionOrKey (s : String)
  | InvalidConfigFile (s : String)
deriving DecidableEq

/-- Outcome of `Repository::config`: a returned value, a returned typed
error, or abnormal termination (`panic` in the source). -/
inductive ConfigReadResult where
  | ok (v : String)
  | err (e : ConfigReadError)
  | panicked (msg : String)
deriving DecidableEq

/-- `Repository::config`: success returns trimmed stdout; exit code 1
maps to `InvalidSectionOrKey` (carrying the key), 3 to
`InvalidConfigFile` (carrying stderr); any other failure terminates
abnormally (the `status.code().unwrap()` on a signal death, or the
final `panic`). -/
def Repository.config (out : Output) (key : String) : ConfigReadResult :=
  if out.success then .ok (rustTrim out.stdout)
  else
    match out.code with
    | some 1 => .err (.InvalidSectionOrKey key)
    | some 3 => .err (.InvalidConfigFile out.stderr)
    | some _ => .panicked out.stderr
    | none => .panicked "called Option.unwrap on a None value"

/-- `ConfigSetError` from `src/lib.rs`. -/
inductive ConfigSetError where
  | InvalidSectionOrKey (s : String)
  | InvalidConfigFile (s : String)
  | WriteFailed (s : String)
deriving DecidableEq

/-- Outcome of `config_file_set`. -/
inductive ConfigSetResult where
  | ok
  | err (e : ConfigSetError)
  | panicked (msg : String)
deriving DecidableEq

/-- `config_file_set`: success is unit; exit codes 1, 3 and 4 map to
`InvalidSectionOrKey`, `InvalidConfigFile` and `WriteFailed`, each
carrying stdout; any other failure code terminates abnormally. -/
def config_file_set (out : Output) : ConfigSetResult :=
  if out.success then .ok
  else
    match out.code with
    | some 1 => .err (.InvalidSectionOrKey out.stdout)
    | some 3 => .err (.InvalidConfigFile out.stdout)
    | some 4 => .err (.WriteFailed out.stdout)
    | some _ => .panicked out.stdout
    | none => .panicked "called Option.unwrap on a None value"

/-- `Repository::head`: `git rev-parse HEAD`; on success the trimmed
stdout, on failure `none`. -/
def Repository.head (out : Output) : Option String :=
  if !out.success then none
  else some (rustTrim out.stdout)

/-- `InvalidRefError` from `src/lib.rs`. -/
inductive InvalidRefError where
  | mk
deriving DecidableEq

/-- `Repository::short_ref`: `git rev-parse --short <ref>`; on failure
`InvalidRefError`, on success the decoded STDERR stream, unmodified
(this is what the source does). -/
def Repository.short_ref (out : Output) : Except InvalidRefError String :=
  if !out.success then .error .mk
  else .ok out.stderr

/-- `Repository::is_clean`: false when `git diff --quiet` fails,
otherwise the success of `git rev-parse HEAD`. -/
def Repository.is_clean (diffOut revOut : Output) : Bool :=
  if !diffOut.success then false
  else revOut.success

/-- Reference-name extraction shared by `tags_from_remote` and
`resolve_head`: `splitn(3, '/')`, discard two pieces, keep the third
when present. -/
def refNamePiece (s : String) : Option String :=
  ((splitnC '/' 3 s.data).get? 2).map String.mk

/-- `tags_from_remote` (after the `ls-remote --refs --tags` call): on
success, for every stdout line push the piece after the first two `/`
separators when it exists; on failure return the output for the
`PosixError` conversion. -/
def tags_from_remote (out : Output) : Except Output (List String) :=
  if out.success then
    .ok ((rustLines out.stdout).filterMap refNamePiece)
  else .error out

/-- Outcome of `resolve_head`: the default-branch name, the error value
built from the failed output, or abnormal termination (an `expect` in
the source). -/
inductive HeadResolution where
  | ok (branch : String)
  | err (failed : Output)
  | panicked
deriving DecidableEq

/-- `resolve_head` (after `ls-remote --symref <remote> HEAD`): on
success take the first stdout line (`expect` panics when there is
none), the field before the first tab, then the piece after the first
two `/` separators (`expect` panics when it is missing). -/
def resolve_head (out : Output) : HeadResolution :=
  if out.success then
    match rustLines out.stdout with
    | [] => .panicked
    | first_line :: _ =>
      match refNamePiece (beforeTab first_line) with
      | some branch => .ok branch
      | none => .panicked
  else .err out

/-- `RefSearchError` from `src/lib.rs` (the IO and UTF-8 variants carry
host error values and are outside the model). -/
inductive RefSearchError where
  | Failure (s : String)
  | NotFound
  | ParsingFailure (s : String)
deriving DecidableEq

/-- `Repository::remote_ref_to_id` (after `ls-remote <remote> <ref>`):
a failed exit gives `Failure` with stderr; an empty stdout gives
`NotFound`; otherwise the first line's `split('\t').next()` field is the
id, with `ParsingFailure` carrying the line when that field is absent. -/
def Repository.remote_ref_to_id (out : Output) : Except RefSearchError String :=
  if !out.success then .error (.Failure out.stderr)
  else
    match rustLines out.stdout with
    | [] => .error .NotFound
    | first_line :: _ =>
      match (splitAllC '\t' first_line.data).head? with
      | some id => .ok (String.mk id)
      | none => .error (.ParsingFailure first_line)

/- ---------------------------------------------------------------------
Helper lemmas about the embedded operations.
--------------------------------------------------------------------- -/

theorem AbsoluteDirPath.new_absolute (fs : FileSys) {p : FilePath}
    (h : p.absolute = true) : AbsoluteDirPath.new fs p = .ok ⟨p⟩ := by
  simp [AbsoluteDirPath.new, h]

theorem FilePath.join_absolute (p : FilePath) (c : String) :
    (p.join c).absolute = p.absolute := rfl

theorem FilePath.parent_eq {ab : Bool} {cs : List String} (h : cs ≠ []) :
    FilePath.parent ⟨ab, cs⟩ = some ⟨ab, cs.dropLast⟩ := by
  cases cs with
  | nil => exact absurd rfl h
  | cons c cs => rfl

theorem FilePath.parent_absolute {p d : FilePath} (h : p.parent = some d) :
    d.absolute = p.absolute := by
  obtain ⟨ab, cs⟩ := p
  cases cs with
  | nil => exact absurd h (by simp [FilePath.parent])
  | cons c cs =>
    rw [FilePath.parent_eq (by simp)] at h
    rw [← Option.some.inj h]

theorem mem_ancestors_absolute {p a : FilePath} (h : a ∈ p.ancestors) :
    a.absolute = p.absolute := by
  simp only [FilePath.ancestors, List.mem_map] at h
  obtain ⟨cs, _, rfl⟩ := h
  rfl

/-- The ancestors walk starts at the path itself. -/
theorem ancestors_cons (p : FilePath) (h : p.components ≠ []) :
    p.ancestors = p :: FilePath.ancestors ⟨p.absolute, p.components.dropLast⟩ := by
  simp [FilePath.ancestors, ancestorComps_cons p.components h]

/-- `search_git_dir` when the start directory passes the self metadata
test: the start itself is returned. -/
theorem search_git_dir_self (fs : FileSys) {start : FilePath}
    (habs : start.absolute = true) (hself : selfIsMetaDir fs start = true) :
    search_git_dir fs start = .ok ⟨start⟩ := by
  simp [search_git_dir, habs, hself, AbsoluteDirPath.new_absolute fs habs]

/-- `search_git_dir` when the self metadata test fails: the ancestor
walk decides. -/
theorem search_git_dir_not_self (fs : FileSys) {start path : FilePath}
    (hres : (if start.absolute then some start else fs.canonicalize start) = some path)
    (hself : selfIsMetaDir fs path = false) :
    search_git_dir fs start = searchAncestors fs path.ancestors := by
  simp [search_git_dir, hres, hself]

/-- The ancestor loop is the first-match search over the candidate
list. -/
theorem searchAncestors_eq_find (fs : FileSys) :
    ∀ l : List FilePath, (∀ a ∈ l, a.absolute = true) →
      searchAncestors fs l =
        match l.find? (fun a =>
            fs.is_dir (a.join ".git") && fs.fs_exists (a.join ".git")) with
        | some a => .ok ⟨a.join ".git"⟩
        | none => .error .GitDirNotFound := by
  intro l
  induction l with
  | nil => intro _; rfl
  | cons a rest ih =>
    intro hall
    rw [searchAncestors, List.find?]
    by_cases hc : (fs.is_dir (a.join ".git") && fs.fs_exists (a.join ".git")) = true
    · simp only [hc, if_true]
      have : (a.join ".git").absolute = true := by
        rw [FilePath.join_absolute]
        exact hall a (List.mem_cons_self a rest)
      exact AbsoluteDirPath.new_absolute fs this
    · simp only [hc, if_false, Bool.false_eq_true]
      exact ih (fun x hx => hall x (List.mem_cons_of_mem a hx))

/-- `work_tree_from_git_dir` when the bareness query reports bare. -/
theorem work_tree_bare (fs : FileSys) {out : Output} (gd : AbsoluteDirPath)
    (h : (out.success && (rustTrim out.stdout == "true")) = true) :
    work_tree_from_git_dir fs out gd = .ok none := by
  simp [work_tree_from_git_dir, h]

/-- `work_tree_from_git_dir` when the bareness query does not report
bare: the work tree is the parent when one exists. -/
theorem work_tree_not_bare (fs : FileSys) {out : Output} {gd : AbsoluteDirPath}
    (h : (out.success && (rustTrim out.stdout == "true")) = false)
    (habs : gd.path.absolute = true) :
    work_tree_from_git_dir fs out gd =
      match gd.path.parent with
      | some dir => .ok (some ⟨dir⟩)
      | none => .ok none := by
  rw [work_tree_from_git_dir, h]
  simp only [Bool.false_eq_true, if_false]
  cases hp : gd.path.parent with
  | none => rfl
  | some dir =>
    have habsd : dir.absolute = true := (FilePath.parent_absolute hp).trans habs
    simp [AbsoluteDirPath.new_absolute fs habsd]

/-- Not-bare query and a parent exists: the parent is the work tree. -/
theorem work_tree_not_bare_parent (fs : FileSys) {out : Output}
    {gd : AbsoluteDirPath} {d : FilePath}
    (h : (out.success && (rustTrim out.stdout == "true")) = false)
    (habs : gd.path.absolute = true) (hd : gd.path.parent = some d) :
    work_tree_from_git_dir fs out gd = .ok (some ⟨d⟩) := by
  rw [work_tree_not_bare fs h habs, hd]

/-- Not-bare query but the metadata directory has no parent: no work
tree is derived. -/
theorem work_tree_not_bare_root (fs : FileSys) {out : Output}
    {gd : AbsoluteDirPath}
    (h : (out.success && (rustTrim out.stdout == "true")) = false)
    (habs : gd.path.absolute = true) (hd : gd.path.parent = none) :
    work_tree_from_git_dir fs out gd = .ok none := by
  rw [work_tree_not_bare fs h habs, hd]

/- ---------------------------------------------------------------------
A small concrete filesystem used to instantiate the theorems:
  /            directory
  /g           directory holding the file /g/HEAD and the directory
               /g/objects (so /g passes the metadata self-test)
  /a, /a/b     plain directories
  /w, /w/sub   plain directories, with a metadata directory /w/.git
--------------------------------------------------------------------- -/

def exFiles : List FilePath := [⟨true, ["g", "HEAD"]⟩]

def exDirs : List FilePath :=
  [⟨true, []⟩, ⟨true, ["g"]⟩, ⟨true, ["g", "objects"]⟩,
   ⟨true, ["a"]⟩, ⟨true, ["a", "b"]⟩,
   ⟨true, ["w"]⟩, ⟨true, ["w", "sub"]⟩, ⟨true, ["w", ".git"]⟩]

def exFS : FileSys where
  is_file p := exFiles.contains p
  is_dir p := exDirs.contains p
  fs_exists p := exFiles.contains p || exDirs.contains p
  canonicalize p :=
    if exFiles.contains p || exDirs.contains p then
      some ⟨true, p.components⟩
    else none

/-- A second concrete filesystem in which the *root* directory itself is
a metadata directory: it holds the file `/HEAD` and the directory
`/objects`, and has no parent. -/
def rootFS : FileSys where
  is_file p := p == ⟨true, ["HEAD"]⟩
  is_dir p := p == ⟨true, []⟩ || p == ⟨true, ["objects"]⟩
  fs_exists p :=
    p == ⟨true, ["HEAD"]⟩ || p == ⟨true, []⟩ || p == ⟨true, ["objects"]⟩
  canonicalize p :=
    if p == ⟨true, ["HEAD"]⟩ || p == ⟨true, []⟩ || p == ⟨true, ["objects"]⟩
    then some ⟨true, p.components⟩
    else none

theorem exFS_canonicalize_absolute :
    ∀ p q : FilePath, exFS.canonicalize p = some q → q.absolute = true := by
  intro p q h
  unfold exFS at h
  simp only at h
  split at h
  · rw [← Option.some.inj h]
  · cases h

/- ---------------------------------------------------------------------
Lemmas about the `splitn`-based reference-name extraction.
--------------------------------------------------------------------- -/

theorem splitFirst_append (sep : Char) (rest : List Char) :
    ∀ a : List Char, sep ∉ a →
      splitFirst sep (a ++ sep :: rest) = some (a, rest) := by
  intro a
  induction a with
  | nil => intro _; simp [splitFirst]
  | cons c cs ih =>
    intro h
    have hne : ¬sep = c := by
      intro e
      exact h (by rw [e]; exact List.mem_cons_self c cs)
    have hc : (c == sep) = false := by
      simp only [beq_eq_false_iff_ne]
      exact fun e => hne e.symm
    rw [List.cons_append, splitFirst]
    rw [ih (fun hm => h (List.mem_cons_of_mem c hm))]
    simp [hc]

theorem splitnC3_spec (a b c : List Char) (ha : '/' ∉ a) (hb : '/' ∉ b) :
    splitnC '/' 3 (a ++ '/' :: (b ++ '/' :: c)) = [a, b, c] := by
  have h1 : splitnC '/' 3 (a ++ '/' :: (b ++ '/' :: c)) =
      a :: splitnC '/' 2 (b ++ '/' :: c) := by
    show (match splitFirst '/' (a ++ '/' :: (b ++ '/' :: c)) with
      | none => [a ++ '/' :: (b ++ '/' :: c)]
      | some (pre, post) => pre :: splitnC '/' 2 post) = _
    rw [splitFirst_append '/' (b ++ '/' :: c) a ha]
  have h2 : splitnC '/' 2 (b ++ '/' :: c) = b :: splitnC '/' 1 c := by
    show (match splitFirst '/' (b ++ '/' :: c) with
      | none => [b ++ '/' :: c]
      | some (pre, post) => pre :: splitnC '/' 1 post) = _
    rw [splitFirst_append '/' c b hb]
  rw [h1, h2]
  rfl

theorem refNamePiece_spec (a b c : List Char) (ha : '/' ∉ a) (hb : '/' ∉ b) :
    refNamePiece (String.mk (a ++ '/' :: (b ++ '/' :: c))) =
      some (String.mk c) := by
  unfold refNamePiece
  show ((splitnC '/' 3 (a ++ '/' :: (b ++ '/' :: c))).get? 2).map String.mk = _
  rw [splitnC3_spec a b c ha hb]
  rfl

/- ---------------------------------------------------------------------
Claim theorems.
--------------------------------------------------------------------- -/

/-- C1 (counterexample): a start directory holding the required `HEAD`
file and `objects` directory is selected as the metadata directory, yet
`Repository::discover` yields a *normal* context with a working tree when
the bareness query answers `"false"` — so such a start does not always
yield a bare context. -/
theorem c1_counterexample :
    exFS.is_file ⟨true, ["g", "HEAD"]⟩ = true ∧
    exFS.is_dir ⟨true, ["g", "objects"]⟩ = true ∧
    Repository.discover exFS ⟨some 0, "false\n", ""⟩ ⟨true, ["g"]⟩ =
      .ok (.Normal ⟨⟨true, ["g"]⟩⟩ ⟨⟨true, []⟩⟩) := by
  decide

/-- C1 (amended): for every start directory whose `HEAD` entry
canonicalizes to a file and whose `objects` entry canonicalizes to a
directory, `search_git_dir` selects the start directory itself as the
metadata directory regardless of any ancestor; `Repository::discover`
then yields a bare context with no working tree exactly when the
bareness query succeeds with output trimming to `"true"` or the
directory has no parent, and otherwise yields a normal context whose
working tree is the directory's parent. -/
theorem c1_self_metadata_discovery (fs : FileSys) (bareOut : Output)
    (start hp op : FilePath)
    (habs : start.absolute = true)
    (hH : fs.canonicalize (start.join "HEAD") = some hp)
    (hHf : fs.is_file hp = true)
    (hO : fs.canonicalize (start.join "objects") = some op)
    (hOd : fs.is_dir op = true) :
    search_git_dir fs start = .ok ⟨start⟩ ∧
    ((bareOut.success && (rustTrim bareOut.stdout == "true")) = true →
      Repository.discover fs bareOut start = .ok (.Bare ⟨start⟩)) ∧
    ((bareOut.success && (rustTrim bareOut.stdout == "true")) = false →
      (∀ d, start.parent = some d →
        Repository.discover fs bareOut start = .ok (.Normal ⟨start⟩ ⟨d⟩)) ∧
      (start.parent = none →
        Repository.discover fs bareOut start = .ok (.Bare ⟨start⟩))) := by
  have hself : selfIsMetaDir fs start = true := by
    simp [selfIsMetaDir, hH, hO, hHf, hOd]
  have hsearch := search_git_dir_self fs habs hself
  refine ⟨hsearch, fun hbare => ?_,
    fun hnb => ⟨fun d hd => ?_, fun hroot => ?_⟩⟩
  · unfold Repository.discover
    rw [hsearch]
    simp only [work_tree_bare fs ⟨start⟩ hbare]
  · unfold Repository.discover
    rw [hsearch]
    simp only [@work_tree_not_bare_parent fs bareOut ⟨start⟩ d hnb habs hd]
  · unfold Repository.discover
    rw [hsearch]
    simp only [@work_tree_not_bare_root fs bareOut ⟨start⟩ hnb habs hroot]

/-- C1 (witness): discovery started at `/g` (which holds `/g/HEAD` and
`/g/objects`) yields the bare context at `/g` when the query answers
`"true\n"` and the normal context with working tree `/` when it answers
`"false\n"`; started at the root of `rootFS` (which holds `/HEAD` and
`/objects` and has no parent) it yields the bare context even though the
query answers `"false\n"`. -/
theorem c1_self_metadata_discovery_witness :
    Repository.discover exFS ⟨some 0, "true\n", ""⟩ ⟨true, ["g"]⟩ =
      .ok (.Bare ⟨⟨true, ["g"]⟩⟩) ∧
    Repository.discover exFS ⟨some 0, "false\n", ""⟩ ⟨true, ["g"]⟩ =
      .ok (.Normal ⟨⟨true, ["g"]⟩⟩ ⟨⟨true, []⟩⟩) ∧
    Repository.discover rootFS ⟨some 0, "false\n", ""⟩ ⟨true, []⟩ =
      .ok (.Bare ⟨⟨true, []⟩⟩) :=
  ⟨(c1_self_metadata_discovery exFS ⟨some 0, "true\n", ""⟩ ⟨true, ["g"]⟩
      ⟨true, ["g", "HEAD"]⟩ ⟨true, ["g", "objects"]⟩
      rfl (by decide) (by decide) (by decide) (by decide)).2.1 (by decide),
   ((c1_self_metadata_discovery exFS ⟨some 0, "false\n", ""⟩ ⟨true, ["g"]⟩
      ⟨true, ["g", "HEAD"]⟩ ⟨true, ["g", "objects"]⟩
      rfl (by decide) (by decide) (by decide) (by decide)).2.2
      (by decide)).1 ⟨true, []⟩ rfl,
   ((c1_self_metadata_discovery rootFS ⟨some 0, "false\n", ""⟩ ⟨true, []⟩
      ⟨true, ["HEAD"]⟩ ⟨true, ["objects"]⟩
      rfl (by decide) (by decide) (by decide) (by decide)).2.2
      (by decide)).2 rfl⟩

/-- C2: when the (canonicalized) start directory is not itself a metadata
directory, `search_git_dir` walks the start and its ancestors in order of
increasing distance and returns the `.git` entry of the first one whose
`.git` entry is a directory (and exists); when no ancestor has one it
fails with `GitDirNotFound`. -/
theorem c2_ancestor_walk (fs : FileSys) (start path : FilePath)
    (hres : (if start.absolute then some start else fs.canonicalize start) =
      some path)
    (habs : path.absolute = true)
    (hself : selfIsMetaDir fs path = false) :
    search_git_dir fs start =
      match path.ancestors.find? (fun a =>
          fs.is_dir (a.join ".git") && fs.fs_exists (a.join ".git")) with
      | some a => .ok ⟨a.join ".git"⟩
      | none => .error .GitDirNotFound := by
  rw [search_git_dir_not_self fs hres hself]
  exact searchAncestors_eq_find fs path.ancestors
    (fun a ha => (mem_ancestors_absolute ha).trans habs)

/-- C2 (witness): starting at `/w/sub` (not itself a metadata directory)
the nearest ancestor with a `.git` directory is `/w`, so the search
returns `/w/.git`; starting at `/a/b`, whose ancestor chain has no
`.git` entry, the search fails with `GitDirNotFound`. -/
theorem c2_ancestor_walk_witness :
    search_git_dir exFS ⟨true, ["w", "sub"]⟩ = .ok ⟨⟨true, ["w", ".git"]⟩⟩ ∧
    search_git_dir exFS ⟨true, ["a", "b"]⟩ = .error .GitDirNotFound :=
  ⟨(c2_ancestor_walk exFS ⟨true, ["w", "sub"]⟩ ⟨true, ["w", "sub"]⟩
      rfl rfl (by decide)).trans (by decide),
   (c2_ancestor_walk exFS ⟨true, ["a", "b"]⟩ ⟨true, ["a", "b"]⟩
      rfl rfl (by decide)).trans (by decide)⟩

/-- C3 (counterexample): the bareness check trims the query's stdout
before comparing with `"true"`, so the output `"true\n"` — which differs
from `"true"` by whitespace — still classifies the repository as bare,
contradicting the claim that any whitespace difference classifies as not
bare. -/
theorem c3_counterexample :
    work_tree_from_git_dir exFS ⟨some 0, "true\n", ""⟩ ⟨⟨true, ["g"]⟩⟩ =
      .ok none ∧
    "true\n" ≠ "true" := by
  decide

/-- C3 (amended): the repository is classified bare exactly when the
query succeeds and its stdout *trimmed of surrounding whitespace* equals
`"true"`; in every other case (trimmed output differing by case or
content, or invocation failure) it is not bare and the working tree is
the metadata directory's parent when one exists. -/
theorem c3_bareness_classification (fs : FileSys) (out : Output)
    (gd : AbsoluteDirPath) (habs : gd.path.absolute = true) :
    ((out.success && (rustTrim out.stdout == "true")) = true →
        work_tree_from_git_dir fs out gd = .ok none) ∧
    ((out.success && (rustTrim out.stdout == "true")) = false →
        work_tree_from_git_dir fs out gd =
          match gd.path.parent with
          | some dir => .ok (some ⟨dir⟩)
          | none => .ok none) :=
  ⟨fun h => work_tree_bare fs gd h, fun h => work_tree_not_bare fs h habs⟩

/-- C3 (witness): output `"false\n"` (and a failed invocation) classify
`/g` as not bare with the parent `/` as working tree; output `"true\n"`
classifies it as bare. -/
theorem c3_bareness_classification_witness :
    work_tree_from_git_dir exFS ⟨some 0, "false\n", ""⟩ ⟨⟨true, ["g"]⟩⟩ =
      .ok (some ⟨⟨true, []⟩⟩) ∧
    work_tree_from_git_dir exFS ⟨some 128, "true", "boom"⟩ ⟨⟨true, ["g"]⟩⟩ =
      .ok (some ⟨⟨true, []⟩⟩) ∧
    work_tree_from_git_dir exFS ⟨some 0, "true\n", ""⟩ ⟨⟨true, ["g"]⟩⟩ =
      .ok none :=
  ⟨((c3_bareness_classification exFS ⟨some 0, "false\n", ""⟩
      ⟨⟨true, ["g"]⟩⟩ rfl).2 (by decide)).trans (by decide),
   ((c3_bareness_classification exFS ⟨some 128, "true", "boom"⟩
      ⟨⟨true, ["g"]⟩⟩ rfl).2 (by decide)).trans (by decide),
   (c3_bareness_classification exFS ⟨some 0, "true\n", ""⟩
      ⟨⟨true, ["g"]⟩⟩ rfl).1 (by decide)⟩

/-- C4: `AbsoluteDirPath::new` accepts an absolute path unchanged with no
existence check; a relative path that canonicalizes is replaced by its
canonical form; a relative path that fails to canonicalize gives
`AbsolutionError`; and when the filesystem's canonicalization yields only
absolute paths, every accepted result is absolute. -/
theorem c4_canonicalization_rule (fs : FileSys) (p : FilePath) :
    (p.absolute = true → AbsoluteDirPath.new fs p = .ok ⟨p⟩) ∧
    (p.absolute = false →
      (∀ q, fs.canonicalize p = some q → AbsoluteDirPath.new fs p = .ok ⟨q⟩) ∧
      (fs.canonicalize p = none →
        AbsoluteDirPath.new fs p = .error (.AbsolutionError p))) ∧
    ((∀ r q, fs.canonicalize r = some q → q.absolute = true) →
      ∀ a, AbsoluteDirPath.new fs p = .ok a → a.path.absolute = true) := by
  refine ⟨fun h => AbsoluteDirPath.new_absolute fs h,
    fun h => ⟨fun q hq => ?_, fun hn => ?_⟩, fun hwf a ha => ?_⟩
  · simp [AbsoluteDirPath.new, h, hq]
  · simp [AbsoluteDirPath.new, h, hn]
  · unfold AbsoluteDirPath.new at ha
    split at ha
    · next habs =>
      rw [← Except.ok.inj ha]
      exact habs
    · split at ha
      · next q hq =>
        rw [← Except.ok.inj ha]
        exact hwf p q hq
      · cases ha

/-- C4 (witness): on the concrete filesystem, the absolute path `/q` is
accepted as-is (despite not existing), while the relative path `x` fails
to canonicalize and gives `AbsolutionError`. -/
theorem c4_canonicalization_rule_witness :
    AbsoluteDirPath.new exFS ⟨true, ["q"]⟩ = .ok ⟨⟨true, ["q"]⟩⟩ ∧
    AbsoluteDirPath.new exFS ⟨false, ["x"]⟩ =
      .error (.AbsolutionError ⟨false, ["x"]⟩) ∧
    (∀ a, AbsoluteDirPath.new exFS ⟨false, ["g"]⟩ = .ok a →
      a.path.absolute = true) :=
  ⟨(c4_canonicalization_rule exFS ⟨true, ["q"]⟩).1 rfl,
   ((c4_canonicalization_rule exFS ⟨false, ["x"]⟩).2.1 rfl).2 (by decide),
   (c4_canonicalization_rule exFS ⟨false, ["g"]⟩).2.2
     exFS_canonicalize_absolute⟩

/-- C5 (counterexample): `config_file_set` maps exit code 4 — a non-zero
code outside {0,1,3} — to the returned typed error `WriteFailed`, not to
a fatal violation. -/
theorem c5_counterexample :
    config_file_set ⟨some 4, "boom", ""⟩ = .err (.WriteFailed "boom") := by
  decide

/-- C5 (amended): `Repository::config` classifies exit code 0 as
success, 1 as `InvalidSectionOrKey`, 3 as `InvalidConfigFile`, and every
other non-zero code as a fatal violation; `config_file_set` additionally
maps exit code 4 to the typed `WriteFailed` error and only codes outside
{0,1,3,4} are fatal. -/
theorem c5_exit_code_classification (out : Output) (key : String) :
    (out.code = some 0 →
      Repository.config out key = .ok (rustTrim out.stdout) ∧
      config_file_set out = .ok) ∧
    (out.code = some 1 →
      Repository.config out key = .err (.InvalidSectionOrKey key) ∧
      config_file_set out = .err (.InvalidSectionOrKey out.stdout)) ∧
    (out.code = some 3 →
      Repository.config out key = .err (.InvalidConfigFile out.stderr) ∧
      config_file_set out = .err (.InvalidConfigFile out.stdout)) ∧
    (out.code = some 4 →
      config_file_set out = .err (.WriteFailed out.stdout)) ∧
    (∀ n : Int, out.code = some n → n ≠ 0 → n ≠ 1 → n ≠ 3 →
      Repository.config out key = .panicked out.stderr) ∧
    (∀ n : Int, out.code = some n → n ≠ 0 → n ≠ 1 → n ≠ 3 → n ≠ 4 →
      config_file_set out = .panicked out.stdout) := by
  refine ⟨fun h0 => ?_, fun h1 => ?_, fun h3 => ?_, fun h4 => ?_,
    fun n hn hn0 hn1 hn3 => ?_, fun n hn hn0 hn1 hn3 hn4 => ?_⟩
  · constructor <;> simp [Repository.config, config_file_set, Output.success, h0]
  · constructor <;> simp [Repository.config, config_file_set, Output.success, h1]
  · constructor <;> simp [Repository.config, config_file_set, Output.success, h3]
  · simp [config_file_set, Output.success, h4]
  · simp [Repository.config, Output.success, hn, hn0, hn1, hn3]
  · simp [config_file_set, Output.success, hn, hn0, hn1, hn3, hn4]

/-- C5 (witness): concrete classifications — code 1 gives the
invalid-key error, code 3 the invalid-file error, and code 2 aborts. -/
theorem c5_exit_code_classification_witness :
    Repository.config ⟨some 1, "", "no key"⟩ "user.name" =
      .err (.InvalidSectionOrKey "user.name") ∧
    Repository.config ⟨some 3, "", "bad file"⟩ "user.name" =
      .err (.InvalidConfigFile "bad file") ∧
    Repository.config ⟨some 2, "", "weird"⟩ "user.name" = .panicked "weird" ∧
    config_file_set ⟨some 2, "weird", ""⟩ = .panicked "weird" :=
  ⟨((c5_exit_code_classification ⟨some 1, "", "no key"⟩ "user.name").2.1
      rfl).1,
   ((c5_exit_code_classification ⟨some 3, "", "bad file"⟩ "user.name").2.2.1
      rfl).1,
   (c5_exit_code_classification ⟨some 2, "", "weird"⟩ "user.name").2.2.2.2.1
      2 rfl (by decide) (by decide) (by decide),
   (c5_exit_code_classification ⟨some 2, "weird", ""⟩ "user.name").2.2.2.2.2
      2 rfl (by decide) (by decide) (by decide) (by decide)⟩

/-- C6: reference-name extraction splits at `'/'` with `splitn(3, _)`,
discards exactly the first two pieces and keeps the third verbatim
(embedded `'/'` included); on the listing line
`"abc123\trefs/heads/main"` the identifier (the field before the first
tab, as taken by `remote_ref_to_id` and `resolve_head`) is `"abc123"`
and the extracted name is `"main"`, and on
`"abc123\trefs/tags/v1/extra"` the extracted name is `"v1/extra"`. -/
theorem c6_ref_name_extraction :
    (∀ a b c : List Char, '/' ∉ a → '/' ∉ b →
      refNamePiece (String.mk (a ++ '/' :: (b ++ '/' :: c))) =
        some (String.mk c)) ∧
    tags_from_remote ⟨some 0, "abc123\trefs/heads/main\n", ""⟩ =
      .ok ["main"] ∧
    tags_from_remote ⟨some 0, "abc123\trefs/tags/v1/extra\n", ""⟩ =
      .ok ["v1/extra"] ∧
    Repository.remote_ref_to_id ⟨some 0, "abc123\trefs/heads/main\n", ""⟩ =
      .ok "abc123" ∧
    beforeTab "abc123\trefs/heads/main" = "abc123" ∧
    resolve_head ⟨some 0, "ref: refs/heads/main\tHEAD\n", ""⟩ = .ok "main" := by
  refine ⟨refNamePiece_spec, ?_, ?_, ?_, ?_, ?_⟩ <;> decide

/-- C6 (witness): the general extraction lemma applied to the pre-tab
field of a symref listing line, as `resolve_head` does: two segments
are discarded, the remainder `"v1/extra"` survives verbatim. -/
theorem c6_ref_name_extraction_witness :
    refNamePiece (String.mk ("abc123\trefs".data ++ '/' ::
      ("tags".data ++ '/' :: "v1/extra".data))) = some "v1/extra" :=
  (c6_ref_name_extraction.1 "abc123\trefs".data "tags".data "v1/extra".data
    (by decide) (by decide)).trans (by decide)

/-- C7: `Repository::remote_ref_to_id` distinguishes its three failure
outcomes: a non-success exit gives `Failure` carrying stderr; a
successful exit with no output line gives `NotFound`; a successful exit
with a first line maps the line's leading tab-field to the id when the
split yields one, and to `ParsingFailure` carrying the line otherwise. -/
theorem c7_remote_ref_classification (out : Output) :
    (out.success = false →
      Repository.remote_ref_to_id out = .error (.Failure out.stderr)) ∧
    (out.success = true → rustLines out.stdout = [] →
      Repository.remote_ref_to_id out = .error .NotFound) ∧
    (∀ l rest, out.success = true → rustLines out.stdout = l :: rest →
      Repository.remote_ref_to_id out =
        match (splitAllC '\t' l.data).head? with
        | some id => .ok (String.mk id)
        | none => .error (.ParsingFailure l)) := by
  refine ⟨fun hf => ?_, fun hs hnil => ?_, fun l rest hs hcons => ?_⟩
  · simp [Repository.remote_ref_to_id, hf]
  · simp [Repository.remote_ref_to_id, hs, hnil]
  · simp only [Repository.remote_ref_to_id, hs, Bool.not_true,
      Bool.false_eq_true, if_false, hcons]

/-- C7 (witness): the three outcomes at concrete outputs — a failed
query, a successful query with empty output, and a successful query with
a matching line. -/
theorem c7_remote_ref_classification_witness :
    Repository.remote_ref_to_id ⟨some 128, "", "fatal: not found"⟩ =
      .error (.Failure "fatal: not found") ∧
    Repository.remote_ref_to_id ⟨some 0, "", ""⟩ = .error .NotFound ∧
    Repository.remote_ref_to_id ⟨some 0, "abc\trefs/tags/v1\n", ""⟩ =
      .ok "abc" :=
  ⟨(c7_remote_ref_classification ⟨some 128, "", "fatal: not found"⟩).1 rfl,
   (c7_remote_ref_classification ⟨some 0, "", ""⟩).2.1 rfl (by decide),
   ((c7_remote_ref_classification ⟨some 0, "abc\trefs/tags/v1\n", ""⟩).2.2
      "abc\trefs/tags/v1" [] rfl (by decide)).trans (by decide)⟩

/-- C8 (counterexample): for the explicit metadata-directory hint
`/a/b` — whose final component is not `.git` — deriving the working tree
gives the parent `/a`, and deriving the metadata directory back gives
`/a/.git`, which differs from the original hint. -/
theorem c8_counterexample :
    work_tree_from_git_dir exFS ⟨some 0, "false\n", ""⟩ ⟨⟨true, ["a", "b"]⟩⟩ =
      .ok (some ⟨⟨true, ["a"]⟩⟩) ∧
    git_dir_from_work_tree exFS ⟨⟨true, ["a"]⟩⟩ =
      .ok ⟨⟨true, ["a", ".git"]⟩⟩ ∧
    (⟨true, ["a", ".git"]⟩ : FilePath) ≠ ⟨true, ["a", "b"]⟩ := by
  decide

/-- C8 (amended): for every absolute metadata-directory hint whose final
component is the fixed name `.git` and whose bareness query does not
report bare, deriving the working tree (the hint's parent) and then
deriving the metadata directory back (appending `.git`) returns exactly
the original hint. -/
theorem c8_round_trip (fs : FileSys) (out : Output) (comps : List String)
    (hnb : (out.success && (rustTrim out.stdout == "true")) = false) :
    work_tree_from_git_dir fs out ⟨⟨true, comps ++ [".git"]⟩⟩ =
      .ok (some ⟨⟨true, comps⟩⟩) ∧
    git_dir_from_work_tree fs ⟨⟨true, comps⟩⟩ =
      .ok ⟨⟨true, comps ++ [".git"]⟩⟩ := by
  constructor
  · rw [work_tree_not_bare fs hnb rfl]
    rw [FilePath.parent_eq (by simp), List.dropLast_concat]
  · exact AbsoluteDirPath.new_absolute fs rfl

/-- C8 (witness): the round trip at the concrete hint `/r/.git`. -/
theorem c8_round_trip_witness :
    work_tree_from_git_dir exFS ⟨some 0, "false\n", ""⟩
      ⟨⟨true, ["r", ".git"]⟩⟩ = .ok (some ⟨⟨true, ["r"]⟩⟩) ∧
    git_dir_from_work_tree exFS ⟨⟨true, ["r"]⟩⟩ =
      .ok ⟨⟨true, ["r", ".git"]⟩⟩ :=
  c8_round_trip exFS ⟨some 0, "false\n", ""⟩ ["r"] (by decide)

/-- C9: `Repository::config` and `Repository::head` do return the
trimmed standard-output value, but `Repository::short_ref` returns the
raw standard-*error* stream: at a successful invocation whose stdout is
`"abc1234\n"` and stderr empty, `short_ref` returns `""` instead of the
trimmed stdout `"abc1234"`. -/
theorem c9_short_ref_returns_stderr :
    Repository.config ⟨some 0, "abc1234\n", ""⟩ "k" = .ok "abc1234" ∧
    Repository.head ⟨some 0, "abc1234\n", ""⟩ = some "abc1234" ∧
    Repository.short_ref ⟨some 0, "abc1234\n", ""⟩ = .ok "" ∧
    rustTrim "abc1234\n" = "abc1234" ∧
    ("" : String) ≠ "abc1234" := by
  decide

/-- C10: `Repository::is_clean` is true exactly when both the diff query
and the HEAD resolution exit successfully; in particular, when HEAD
cannot be resolved the repository is reported not clean even though the
diff query succeeded. -/
theorem c10_is_clean_conjunction (diffOut revOut : Output) :
    (Repository.is_clean diffOut revOut = true ↔
      diffOut.success = true ∧ revOut.success = true) ∧
    (diffOut.success = true → revOut.success = false →
      Repository.is_clean diffOut revOut = false) := by
  constructor
  · unfold Repository.is_clean
    cases h : diffOut.success <;> simp [h]
  · intro hd hr
    simp [Repository.is_clean, hd, hr]

/-- C10 (witness): a repository where the diff query succeeds but HEAD
resolution fails (exit 128, as with no commits) is not clean. -/
theorem c10_is_clean_conjunction_witness :
    Repository.is_clean ⟨some 0, "", ""⟩ ⟨some 128, "", "fatal: HEAD"⟩ =
      false :=
  (c10_is_clean_conjunction ⟨some 0, "", ""⟩ ⟨some 128, "", "fatal: HEAD"⟩).2
    rfl (by decide)

end GitWrapper
